import Mathlib

/-!
Verification of the columnar-storage / transaction-commit core of an embedded
analytical database, as a shallow embedding of the C++ sources.

Modelled sources:
- `src/storage/table/transient_segment.cpp` (TransientSegment)
- `src/transaction/commit_state.cpp` (CommitState)
- `src/include/duckdb/storage/column_data.hpp` (interface context only)

Machine integers (`idx_t`, `row_t`) are modelled as `Nat`; where the source
performs unsigned subtraction whose wrap-around behaviour matters, the
subtraction is modelled explicitly modulo `2^64` (`wsub`).
-/

/-- Unsigned 64-bit subtraction: `a - b` computed modulo `2^64`, exactly as a
C++ `uint64_t` subtraction behaves. -/
def wsub (a b : Nat) : Nat :=
  (((a : Int) - (b : Int)) % (2 ^ 64 : Int)).toNat

theorem wsub_of_le (a b : Nat) (hba : b ≤ a) (ha : a < 2 ^ 64) :
    wsub a b = a - b := by
  have h64 : ((2 : Int) ^ 64) = 18446744073709551616 := by norm_num
  have ha' : a < 18446744073709551616 := by
    have : (2 : Nat) ^ 64 = 18446744073709551616 := by norm_num
    omega
  show (((a : Int) - (b : Int)) % (2 ^ 64 : Int)).toNat = a - b
  rw [h64]
  omega

theorem wsub_of_lt (a b : Nat) (hab : a < b) (hb : b < 2 ^ 64) :
    wsub a b = 2 ^ 64 - (b - a) := by
  have h64 : ((2 : Int) ^ 64) = 18446744073709551616 := by norm_num
  have h64n : (2 : Nat) ^ 64 = 18446744073709551616 := by norm_num
  show (((a : Int) - (b : Int)) % (2 ^ 64 : Int)).toNat = 2 ^ 64 - (b - a)
  rw [h64, h64n]
  omega

/-! ## Segment model (`transient_segment.cpp`)

A `TransientSegment` owns a row range `[start, start + count)` backed by a
mutable in-memory data block (`data`, whose row count is `tuple_count`) and
summary statistics. Statistics contents are opaque to every operation modelled
here (they are only ever moved), so they are represented by an abstract `Nat`
payload. -/

structure TransientSegment where
  /-- Row id at which this segment starts (`ColumnSegment::start`). -/
  start : Nat
  /-- Number of rows held by the segment (`ColumnSegment::count`). -/
  count : Nat
  /-- Opaque summary-statistics payload (`ColumnSegment::stats`). -/
  stats : Nat
  /-- Row count of the backing uncompressed data block (`data->tuple_count`). -/
  tuple_count : Nat
deriving DecidableEq, Repr

/-- A `PersistentSegment` additionally records the on-disk block id it was
loaded from, the current block id of its data block, and whether a successor
segment exists in the chain (`segment.next`). -/
structure PersistentSegment where
  start : Nat
  count : Nat
  stats : Nat
  block_id : Nat
  /-- `segment.data->block->BlockId()` -/
  data_block_id : Nat
  tuple_count : Nat
  /-- Whether `segment.next` is non-null. -/
  has_next : Bool
deriving DecidableEq, Repr

/-- `TransientSegment::TransientSegment(PersistentSegment &)`: the
copy-on-write promotion constructor. It converts the data block to a temporary
block when it still aliases the on-disk block, then moves data and statistics
and copies start and count from the persistent segment. -/
def TransientSegment.fromPersistent (segment : PersistentSegment) : TransientSegment :=
  { start := segment.start
    count := segment.count
    stats := segment.stats
    tuple_count := segment.tuple_count }

/-- `TransientSegment::Append`: `data->Append` grows the data block by the
number of appended rows and the segment count grows by the same amount
(`this->count += appended`). -/
def TransientSegment.Append (seg : TransientSegment) (appended : Nat) : TransientSegment :=
  { seg with tuple_count := seg.tuple_count + appended, count := seg.count + appended }

/-- `TransientSegment::RevertAppend(start_row)`:
`data->tuple_count = start_row - this->start; this->count = start_row - this->start;`
with `idx_t` (unsigned 64-bit) subtraction. -/
def TransientSegment.RevertAppend (seg : TransientSegment) (start_row : Nat) : TransientSegment :=
  { seg with
    tuple_count := wsub start_row seg.start
    count := wsub start_row seg.start }

/-- `TransientSegment::FetchRow`: the row offset handed to the data block is
`row_id - this->start`, computed in unsigned 64-bit arithmetic. -/
def TransientSegment.FetchRowOffset (seg : TransientSegment) (row_id : Nat) : Nat :=
  wsub row_id seg.start

/-- C5: constructing a TransientSegment from a PersistentSegment that is the
last segment of its chain (`D_ASSERT(!segment.next)`) preserves the start row,
the row count and the summary statistics. -/
theorem transient_from_persistent_preserves (segment : PersistentSegment)
    (hlast : segment.has_next = false) :
    (TransientSegment.fromPersistent segment).start = segment.start ∧
    (TransientSegment.fromPersistent segment).count = segment.count ∧
    (TransientSegment.fromPersistent segment).stats = segment.stats := by
  exact ⟨rfl, rfl, rfl⟩

theorem transient_from_persistent_preserves_witness :
    (TransientSegment.fromPersistent
        { start := 7, count := 3, stats := 42, block_id := 1,
          data_block_id := 1, tuple_count := 3, has_next := false }).start = 7 ∧
    (TransientSegment.fromPersistent
        { start := 7, count := 3, stats := 42, block_id := 1,
          data_block_id := 1, tuple_count := 3, has_next := false }).count = 3 ∧
    (TransientSegment.fromPersistent
        { start := 7, count := 3, stats := 42, block_id := 1,
          data_block_id := 1, tuple_count := 3, has_next := false }).stats = 42 := by
  have h := transient_from_persistent_preserves
    { start := 7, count := 3, stats := 42, block_id := 1,
      data_block_id := 1, tuple_count := 3, has_next := false } rfl
  exact h

/-- C6: for `seg.start ≤ start_row < 2^64`, `RevertAppend start_row` sets both
the segment count and the data block's tuple count to `start_row - seg.start`;
it is idempotent; and reverting to `seg.start + seg.count` leaves the row
count unchanged. -/
theorem revertAppend_spec (seg : TransientSegment) (start_row : Nat)
    (h1 : seg.start ≤ start_row) (h2 : start_row < 2 ^ 64) :
    ((seg.RevertAppend start_row).count = start_row - seg.start ∧
      (seg.RevertAppend start_row).tuple_count = start_row - seg.start) ∧
    (seg.RevertAppend start_row).RevertAppend start_row = seg.RevertAppend start_row ∧
    (start_row = seg.start + seg.count →
      (seg.RevertAppend start_row).count = seg.count) := by
  have hw : wsub start_row seg.start = start_row - seg.start :=
    wsub_of_le start_row seg.start h1 h2
  refine ⟨⟨?_, ?_⟩, ?_, ?_⟩
  · simp [TransientSegment.RevertAppend, hw]
  · simp [TransientSegment.RevertAppend, hw]
  · simp [TransientSegment.RevertAppend]
  · intro h
    subst h
    show wsub (seg.start + seg.count) seg.start = seg.count
    rw [wsub_of_le _ _ (Nat.le_add_right _ _) h2]
    omega

theorem revertAppend_spec_witness :
    (((TransientSegment.mk 10 6 0 6).RevertAppend 16).count = 6 ∧
      ((TransientSegment.mk 10 6 0 6).RevertAppend 16).tuple_count = 6) ∧
    ((TransientSegment.mk 10 6 0 6).RevertAppend 16).RevertAppend 16 =
      (TransientSegment.mk 10 6 0 6).RevertAppend 16 ∧
    (16 = 10 + 6 → ((TransientSegment.mk 10 6 0 6).RevertAppend 16).count = 6) := by
  have h := revertAppend_spec (TransientSegment.mk 10 6 0 6) 16
    (by decide) (by norm_num)
  simpa using h

/-- C10: `FetchRow` computes the segment-relative offset `row_id - start` in
unsigned 64-bit arithmetic. In range (`start ≤ row_id < start + count`) the
offset is exact and lies in `[0, count)`; for `row_id < start` the subtraction
wraps modulo `2^64`. -/
theorem fetchRowOffset_spec (seg : TransientSegment) (row_id : Nat) :
    (seg.start ≤ row_id → row_id < seg.start + seg.count → row_id < 2 ^ 64 →
      seg.FetchRowOffset row_id = row_id - seg.start ∧
      row_id - seg.start < seg.count) ∧
    (row_id < seg.start → seg.start < 2 ^ 64 →
      seg.FetchRowOffset row_id = 2 ^ 64 - (seg.start - row_id)) := by
  constructor
  · intro h1 h2 h3
    refine ⟨?_, by omega⟩
    exact wsub_of_le row_id seg.start h1 h3
  · intro h1 h2
    exact wsub_of_lt row_id seg.start h1 h2

theorem fetchRowOffset_spec_witness :
    ((TransientSegment.mk 10 5 0 5).FetchRowOffset 12 = 2 ∧ 12 - 10 < 5) ∧
    (TransientSegment.mk 10 5 0 5).FetchRowOffset 3 = 2 ^ 64 - 7 := by
  refine ⟨?_, ?_⟩
  · have h := (fetchRowOffset_spec (TransientSegment.mk 10 5 0 5) 12).1
      (by decide) (by decide) (by norm_num)
    simpa using h
  · have h := (fetchRowOffset_spec (TransientSegment.mk 10 5 0 5) 3).2
      (by decide) (by norm_num)
    simpa using h

/-! ## Commit/undo engine model (`commit_state.cpp`)

Each side-effecting call the engine makes — log-sink writes, catalog hooks,
timestamp updates, table visibility changes — is recorded as an `Event`, in
the order the source performs it. State threaded through the engine is the
`CommitState` (commit id and the log sink's current table) together with the
undo entry's own mutable payload (`UndoData`). -/

/-- Catalog entry kinds, as enumerated by the switches of
`CommitState::WriteCatalogEntry`. `INVALID_ENTRY` stands for the values of the
source enum that none of the listed cases match (the `default:` branch).
Modelled from the spec for the part not in the sources: the catalog's entry
taxonomy has kinds beyond those enumerated here, which the engine treats as an
invariant violation. -/
inductive CatalogType where
  | TABLE_ENTRY
  | SCHEMA_ENTRY
  | VIEW_ENTRY
  | SEQUENCE_ENTRY
  | MACRO_ENTRY
  | DELETED_ENTRY
  | INDEX_ENTRY
  | PREPARED_STATEMENT
  | AGGREGATE_FUNCTION_ENTRY
  | SCALAR_FUNCTION_ENTRY
  | TABLE_FUNCTION_ENTRY
  | COPY_FUNCTION_ENTRY
  | PRAGMA_FUNCTION_ENTRY
  | COLLATION_ENTRY
  | INVALID_ENTRY
deriving DecidableEq, Repr

/-- Undo-log entry kinds. The four kinds handled by the engine come from the
switches in `CommitState::CommitEntry` / `RevertCommit`. Modelled from the
spec for the part not in the sources: the undo buffer also holds entry kinds
the commit engine does not recognise (`EMPTY_ENTRY`, `QUERY`), which hit the
`default:` branches. -/
inductive UndoFlags where
  | CATALOG_ENTRY
  | INSERT_TUPLE
  | DELETE_TUPLE
  | UPDATE_TUPLE
  | EMPTY_ENTRY
  | QUERY
deriving DecidableEq, Repr

/-- `DataTableInfo`: the per-table metadata object. `ptr` models the object's
identity (the pointer compared by `SwitchTable`); `temporary` models
`IsTemporary()`. -/
structure DataTableInfo where
  ptr : Nat
  schema : String
  table : String
  temporary : Bool
deriving DecidableEq, Repr

/-- State of one catalog-change undo entry: the child entry and its parent in
the version chain, with the timestamps held for them by the owning catalog
set (`set->UpdateTimestamp` targets). -/
structure CatalogEntryState where
  name : String
  parentName : String
  type : CatalogType
  parentType : CatalogType
  temporary : Bool
  parentTemporary : Bool
  timestamp : Nat
  parentTimestamp : Nat
deriving DecidableEq, Repr

/-- `AppendInfo`: a row-insertion undo entry (`start_row`, `count`, owning
table). -/
structure AppendInfo where
  table : DataTableInfo
  start_row : Nat
  count : Nat
deriving DecidableEq, Repr

/-- `DeleteInfo`: a row-deletion undo entry. `count` of the source equals
`rows.length`. -/
structure DeleteInfo where
  table : DataTableInfo
  base_row : Nat
  rows : List Nat
deriving DecidableEq, Repr

/-- `UpdateInfo`: a row-update undo entry. `committed` gives, per tuple offset
of the affected row batch, the committed base-segment value that
`UpdateSegment::FetchCommitted` materialises (that function lives outside
these sources; its result is abstracted as given data). Values are abstracted
as `Nat`. -/
structure UpdateInfo where
  tableInfo : DataTableInfo
  column_idx : Nat
  segment_start : Nat
  vector_index : Nat
  tuples : List Nat
  committed : Nat → Nat
  version_number : Nat

/-- The payload behind an undo entry's `data_ptr_t`, with the reinterpretation
each `UndoFlags` tag applies already performed: the tag selects which view the
engine reads. -/
structure UndoData where
  catalogEntry : CatalogEntryState
  appendInfo : AppendInfo
  deleteInfo : DeleteInfo
  updateInfo : UpdateInfo

/-- One observable side effect of the commit engine, in source order.
`wal*` events are calls on the log sink (WriteAheadLog); `hook*` events are
the catalog's CommitAlter/CommitDrop hooks; the remaining events are the
visibility mutations (catalog timestamp updates, CommitAppend, CommitDelete,
update-chain version stamping) and the revert-direction table mutations. -/
inductive Event where
  | walSetTable (info : DataTableInfo)
  | walCreate (k : CatalogType) (name : String)
  | walAlter
  | walDrop (k : CatalogType) (name : String)
  | walDelete (rows : List Nat)
  | walUpdate (column_idx : Nat) (values row_ids : List Nat)
  | walInsert (start_row count : Nat)
  | hookCommitAlter
  | hookCommitDrop
  | updateTimestampEvt (entryName : String) (ts : Nat)
  | commitAppendEvt (commit_id start_row count : Nat)
  | commitDeleteEvt (commit_id : Nat) (rows : List Nat)
  | stampVersionEvt (ts : Nat)
  | revertAppendEvt (start_row count : Nat)
  | incCardinalityEvt (count : Nat)
deriving DecidableEq, Repr

/-- Whether an event is a call on the log sink. -/
def Event.isWal : Event → Bool
  | .walSetTable _ => true
  | .walCreate _ _ => true
  | .walAlter => true
  | .walDrop _ _ => true
  | .walDelete _ => true
  | .walUpdate _ _ _ => true
  | .walInsert _ _ => true
  | _ => false

/-- Whether an event is a catalog CommitAlter/CommitDrop hook call. -/
def Event.isHook : Event → Bool
  | .hookCommitAlter => true
  | .hookCommitDrop => true
  | _ => false

/-- Whether an event is one of the visibility mutations (timestamp update,
CommitAppend, CommitDelete, version stamping). -/
def Event.isVis : Event → Bool
  | .updateTimestampEvt _ _ => true
  | .commitAppendEvt _ _ _ => true
  | .commitDeleteEvt _ _ => true
  | .stampVersionEvt _ => true
  | _ => false

/-- The visibility-mutation subsequence of a trace. -/
def visEvents (evs : List Event) : List Event :=
  evs.filter Event.isVis

/-- The switch-to-table markers of a trace. -/
def markersOf (evs : List Event) : List DataTableInfo :=
  evs.filterMap fun e =>
    match e with
    | .walSetTable i => some i
    | _ => none

/-- Errors of the commit engine. `NotImplementedException` sites are told
apart by which throw statement raised them. -/
inductive WalWriteError where
  | dropNotImplemented
  | walWriteNotImplemented
deriving DecidableEq, Repr

inductive CommitError where
  | catalogWal (e : WalWriteError)
  | unknownUndoTypeCommit
  | unknownUndoTypeRevert
deriving DecidableEq, Repr

/-- `CommitState`: commit id and the log sink's current table
(`current_table_info`, a pointer that starts out null). -/
structure CommitState where
  commit_id : Nat
  currentTable : Option Nat
deriving DecidableEq, Repr

/-- `CommitState::SwitchTable`: emit a `WriteSetTable` marker and remember the
table whenever the entry's table differs from the one the log sink currently
addresses. The `new_op` argument is carried but unused, as in the source. -/
def CommitState.SwitchTable (st : CommitState) (table_info : DataTableInfo)
    (new_op : UndoFlags) : CommitState × List Event :=
  if st.currentTable ≠ some table_info.ptr then
    ({ st with currentTable := some table_info.ptr }, [.walSetTable table_info])
  else
    (st, [])

/-- `CommitState::WriteCatalogEntry`: classify the parent catalog entry and
emit the matching create/alter/drop record; temporary entries are skipped
entirely; unsupported kinds raise `NotImplementedException`. -/
def WriteCatalogEntry (entry : CatalogEntryState) :
    Except WalWriteError (List Event) :=
  if entry.temporary || entry.parentTemporary then
    .ok []
  else
    match entry.parentType with
    | .TABLE_ENTRY =>
      if entry.type = .TABLE_ENTRY then
        .ok [.hookCommitAlter, .walAlter]
      else
        .ok [.walCreate .TABLE_ENTRY entry.parentName]
    | .SCHEMA_ENTRY =>
      if entry.type = .SCHEMA_ENTRY then
        .ok []
      else
        .ok [.walCreate .SCHEMA_ENTRY entry.parentName]
    | .VIEW_ENTRY =>
      if entry.type = .VIEW_ENTRY then
        .ok [.walAlter]
      else
        .ok [.walCreate .VIEW_ENTRY entry.parentName]
    | .SEQUENCE_ENTRY => .ok [.walCreate .SEQUENCE_ENTRY entry.parentName]
    | .MACRO_ENTRY => .ok [.walCreate .MACRO_ENTRY entry.parentName]
    | .DELETED_ENTRY =>
      match entry.type with
      | .TABLE_ENTRY => .ok [.hookCommitDrop, .walDrop .TABLE_ENTRY entry.name]
      | .SCHEMA_ENTRY => .ok [.walDrop .SCHEMA_ENTRY entry.name]
      | .VIEW_ENTRY => .ok [.walDrop .VIEW_ENTRY entry.name]
      | .SEQUENCE_ENTRY => .ok [.walDrop .SEQUENCE_ENTRY entry.name]
      | .MACRO_ENTRY => .ok [.walDrop .MACRO_ENTRY entry.name]
      | .PREPARED_STATEMENT => .ok []
      | _ => .error .dropNotImplemented
    | .INDEX_ENTRY => .ok []
    | .PREPARED_STATEMENT => .ok []
    | .AGGREGATE_FUNCTION_ENTRY => .ok []
    | .SCALAR_FUNCTION_ENTRY => .ok []
    | .TABLE_FUNCTION_ENTRY => .ok []
    | .COPY_FUNCTION_ENTRY => .ok []
    | .PRAGMA_FUNCTION_ENTRY => .ok []
    | .COLLATION_ENTRY => .ok []
    | .INVALID_ENTRY => .error .walWriteNotImplemented

/-- `CommitState::WriteDelete`: switch to the entry's table if necessary, then
write the deleted row ids (`base_row + rows[i]`) as one batch. -/
def CommitState.WriteDelete (st : CommitState) (info : DeleteInfo) :
    CommitState × List Event :=
  let p := st.SwitchTable info.table .DELETE_TUPLE
  (p.1, p.2 ++ [.walDelete (info.rows.map fun r => info.base_row + r)])

/-- `STANDARD_VECTOR_SIZE`: the fixed row-batch size. -/
def STANDARD_VECTOR_SIZE : Nat := 1024

/-- `CommitState::WriteUpdate`: switch to the owning column's table if
necessary, fetch the committed base values of the affected batch, pair the
changed tuple offsets with absolute row ids
(`segment->start + vector_index * STANDARD_VECTOR_SIZE + tuple`), and emit
them as one update record keyed by the column index. -/
def CommitState.WriteUpdate (st : CommitState) (info : UpdateInfo) :
    CommitState × List Event :=
  let p := st.SwitchTable info.tableInfo .UPDATE_TUPLE
  let start := info.segment_start + info.vector_index * STANDARD_VECTOR_SIZE
  (p.1, p.2 ++ [.walUpdate info.column_idx (info.tuples.map info.committed)
      (info.tuples.map fun t => start + t)])

/-- Modelled from the spec: `DataTable::WriteToLog(log, start_row, count)` is
not part of these sources. Per the spec it serializes the inserted row range
to the log sink, and the log-switching rule ("before writing any record the
engine must emit a switch-to-table marker whenever the table of the current
entry differs from the table of the previous one", a concern local to
CommitState) applies to it like to every other record. -/
def CommitState.WriteToLog (st : CommitState) (table : DataTableInfo)
    (start_row count : Nat) : CommitState × List Event :=
  let p := st.SwitchTable table .INSERT_TUPLE
  (p.1, p.2 ++ [.walInsert start_row count])

/-- `CommitState::CommitEntry<HAS_LOG>`: finalize one undo entry. Returns the
updated commit state, the entry's mutated payload, and the trace of side
effects in source order. -/
def CommitState.CommitEntry (HAS_LOG : Bool) (st : CommitState)
    (type : UndoFlags) (data : UndoData) :
    Except CommitError (CommitState × UndoData × List Event) :=
  match type with
  | .CATALOG_ENTRY =>
    let e := data.catalogEntry
    let tsEvents : List Event :=
      [.updateTimestampEvt e.parentName st.commit_id] ++
        (if e.name ≠ e.parentName then
          [Event.updateTimestampEvt e.name st.commit_id]
        else [])
    let e2 : CatalogEntryState :=
      { e with
        parentTimestamp := st.commit_id
        timestamp := if e.name ≠ e.parentName then st.commit_id else e.timestamp }
    if HAS_LOG then
      match WriteCatalogEntry e2 with
      | .error err => .error (.catalogWal err)
      | .ok walEvents =>
        .ok (st, { data with catalogEntry := e2 }, tsEvents ++ walEvents)
    else
      .ok (st, { data with catalogEntry := e2 }, tsEvents)
  | .INSERT_TUPLE =>
    let info := data.appendInfo
    if HAS_LOG && !info.table.temporary then
      let p := st.WriteToLog info.table info.start_row info.count
      .ok (p.1, data,
        p.2 ++ [.commitAppendEvt st.commit_id info.start_row info.count])
    else
      .ok (st, data, [.commitAppendEvt st.commit_id info.start_row info.count])
  | .DELETE_TUPLE =>
    let info := data.deleteInfo
    if HAS_LOG && !info.table.temporary then
      let p := st.WriteDelete info
      .ok (p.1, data, p.2 ++ [.commitDeleteEvt st.commit_id info.rows])
    else
      .ok (st, data, [.commitDeleteEvt st.commit_id info.rows])
  | .UPDATE_TUPLE =>
    let info := data.updateInfo
    if HAS_LOG && !info.tableInfo.temporary then
      let p := st.WriteUpdate info
      .ok (p.1,
        { data with updateInfo := { info with version_number := st.commit_id } },
        p.2 ++ [.stampVersionEvt st.commit_id])
    else
      .ok (st,
        { data with updateInfo := { info with version_number := st.commit_id } },
        [.stampVersionEvt st.commit_id])
  | _ => .error .unknownUndoTypeCommit

/-- `CommitState::RevertCommit`: roll an already-committed undo entry back by
re-stamping with the (uncommitted) transaction id stored in `commit_id`. -/
def CommitState.RevertCommit (st : CommitState) (type : UndoFlags)
    (data : UndoData) : Except CommitError (UndoData × List Event) :=
  let transaction_id := st.commit_id
  match type with
  | .CATALOG_ENTRY =>
    let e := data.catalogEntry
    let tsEvents : List Event :=
      [.updateTimestampEvt e.parentName transaction_id] ++
        (if e.name ≠ e.parentName then
          [Event.updateTimestampEvt e.name transaction_id]
        else [])
    let e2 : CatalogEntryState :=
      { e with
        parentTimestamp := transaction_id
        timestamp := if e.name ≠ e.parentName then transaction_id else e.timestamp }
    .ok ({ data with catalogEntry := e2 }, tsEvents)
  | .INSERT_TUPLE =>
    let info := data.appendInfo
    .ok (data, [.revertAppendEvt info.start_row info.count])
  | .DELETE_TUPLE =>
    let info := data.deleteInfo
    .ok (data,
      [.incCardinalityEvt info.rows.length,
       .commitDeleteEvt transaction_id info.rows])
  | .UPDATE_TUPLE =>
    let info := data.updateInfo
    .ok ({ data with updateInfo := { info with version_number := transaction_id } },
      [.stampVersionEvt transaction_id])
  | _ => .error .unknownUndoTypeRevert

/-- Commit a whole undo log in log order, accumulating the event trace;
an error aborts the traversal, as a thrown exception does. -/
def commitEntries (HAS_LOG : Bool) (st : CommitState) :
    List (UndoFlags × UndoData) → Except CommitError (CommitState × List Event)
  | [] => .ok (st, [])
  | (t, d) :: rest =>
    match st.CommitEntry HAS_LOG t d with
    | .error err => .error err
    | .ok (st2, _, evs) =>
      match commitEntries HAS_LOG st2 rest with
      | .error err => .error err
      | .ok (st3, evs2) => .ok (st3, evs ++ evs2)

/-- Events of a commit-entry result (none on error). -/
def commitEventsOf (r : Except CommitError (CommitState × UndoData × List Event)) :
    List Event :=
  match r with
  | .ok (_, _, evs) => evs
  | .error _ => []

/-- Events of a revert result (none on error). -/
def revertEventsOf (r : Except CommitError (UndoData × List Event)) : List Event :=
  match r with
  | .ok (_, evs) => evs
  | .error _ => []

/-- Events of a whole-log commit (none on error). -/
def entriesEventsOf (r : Except CommitError (CommitState × List Event)) : List Event :=
  match r with
  | .ok (_, evs) => evs
  | .error _ => []

/-- The table a row-level undo entry addresses, if any. -/
def entryTableOf (type : UndoFlags) (data : UndoData) : Option DataTableInfo :=
  match type with
  | .INSERT_TUPLE => some data.appendInfo.table
  | .DELETE_TUPLE => some data.deleteInfo.table
  | .UPDATE_TUPLE => some data.updateInfo.tableInfo
  | _ => none

/-- Whether an entry is a row-level entry on a non-temporary table, i.e. one
whose commit writes records through the table-switching discipline. -/
def isLoggedRowEntry : UndoFlags × UndoData → Bool
  | (.INSERT_TUPLE, d) => !d.appendInfo.table.temporary
  | (.DELETE_TUPLE, d) => !d.deleteInfo.table.temporary
  | (.UPDATE_TUPLE, d) => !d.updateInfo.tableInfo.temporary
  | _ => false

/-- The tables of a list of undo entries, in order. -/
def entryTables (es : List (UndoFlags × UndoData)) : List DataTableInfo :=
  es.filterMap fun p => entryTableOf p.1 p.2

/-- Collapse consecutive repetitions of the same table (by identity), given
the table the sink currently addresses: the switch markers that a sequence of
table references produces. -/
def chainDedup : Option Nat → List DataTableInfo → List DataTableInfo
  | _, [] => []
  | cur, t :: ts =>
    if cur = some t.ptr then chainDedup cur ts
    else t :: chainDedup (some t.ptr) ts

/-- Committing a row-level entry on a non-temporary table always succeeds,
leaves the commit id unchanged, points the log sink at the entry's table, and
emits a switch marker exactly when the sink addressed a different table. -/
theorem commitEntry_row_trace (st : CommitState) (t : UndoFlags) (d : UndoData)
    (h : isLoggedRowEntry (t, d) = true) :
    ∃ tbl st2 d2 evs, entryTableOf t d = some tbl ∧
      st.CommitEntry true t d = .ok (st2, d2, evs) ∧
      st2.commit_id = st.commit_id ∧
      st2.currentTable = some tbl.ptr ∧
      markersOf evs = (if st.currentTable = some tbl.ptr then [] else [tbl]) := by
  cases t <;> simp [isLoggedRowEntry] at h
  case INSERT_TUPLE =>
    by_cases hc : st.currentTable = some d.appendInfo.table.ptr
    · refine ⟨d.appendInfo.table, st, d,
        [.walInsert d.appendInfo.start_row d.appendInfo.count,
         .commitAppendEvt st.commit_id d.appendInfo.start_row d.appendInfo.count],
        rfl, ?_, rfl, hc, ?_⟩
      · simp [CommitState.CommitEntry, CommitState.WriteToLog,
          CommitState.SwitchTable, h, hc]
      · rw [if_pos hc]; rfl
    · refine ⟨d.appendInfo.table, { st with currentTable := some d.appendInfo.table.ptr }, d,
        [.walSetTable d.appendInfo.table,
         .walInsert d.appendInfo.start_row d.appendInfo.count,
         .commitAppendEvt st.commit_id d.appendInfo.start_row d.appendInfo.count],
        rfl, ?_, rfl, rfl, ?_⟩
      · simp [CommitState.CommitEntry, CommitState.WriteToLog,
          CommitState.SwitchTable, h, hc]
      · rw [if_neg hc]; rfl
  case DELETE_TUPLE =>
    by_cases hc : st.currentTable = some d.deleteInfo.table.ptr
    · refine ⟨d.deleteInfo.table, st, d,
        [.walDelete (d.deleteInfo.rows.map fun r => d.deleteInfo.base_row + r),
         .commitDeleteEvt st.commit_id d.deleteInfo.rows],
        rfl, ?_, rfl, hc, ?_⟩
      · simp [CommitState.CommitEntry, CommitState.WriteDelete,
          CommitState.SwitchTable, h, hc]
      · rw [if_pos hc]; rfl
    · refine ⟨d.deleteInfo.table, { st with currentTable := some d.deleteInfo.table.ptr }, d,
        [.walSetTable d.deleteInfo.table,
         .walDelete (d.deleteInfo.rows.map fun r => d.deleteInfo.base_row + r),
         .commitDeleteEvt st.commit_id d.deleteInfo.rows],
        rfl, ?_, rfl, rfl, ?_⟩
      · simp [CommitState.CommitEntry, CommitState.WriteDelete,
          CommitState.SwitchTable, h, hc]
      · rw [if_neg hc]; rfl
  case UPDATE_TUPLE =>
    by_cases hc : st.currentTable = some d.updateInfo.tableInfo.ptr
    · refine ⟨d.updateInfo.tableInfo, st,
        { d with updateInfo := { d.updateInfo with version_number := st.commit_id } },
        [.walUpdate d.updateInfo.column_idx (d.updateInfo.tuples.map d.updateInfo.committed)
           (d.updateInfo.tuples.map fun tp =>
             d.updateInfo.segment_start +
               d.updateInfo.vector_index * STANDARD_VECTOR_SIZE + tp),
         .stampVersionEvt st.commit_id],
        rfl, ?_, rfl, hc, ?_⟩
      · simp [CommitState.CommitEntry, CommitState.WriteUpdate,
          CommitState.SwitchTable, h, hc]
      · rw [if_pos hc]; rfl
    · refine ⟨d.updateInfo.tableInfo,
        { st with currentTable := some d.updateInfo.tableInfo.ptr },
        { d with updateInfo := { d.updateInfo with version_number := st.commit_id } },
        [.walSetTable d.updateInfo.tableInfo,
         .walUpdate d.updateInfo.column_idx (d.updateInfo.tuples.map d.updateInfo.committed)
           (d.updateInfo.tuples.map fun tp =>
             d.updateInfo.segment_start +
               d.updateInfo.vector_index * STANDARD_VECTOR_SIZE + tp),
         .stampVersionEvt st.commit_id],
        rfl, ?_, rfl, rfl, ?_⟩
      · simp [CommitState.CommitEntry, CommitState.WriteUpdate,
          CommitState.SwitchTable, h, hc]
      · rw [if_neg hc]; rfl

/-- Committing a log of row-level entries on non-temporary tables succeeds and
produces exactly the switch markers `chainDedup` predicts. -/
theorem commitEntries_markers (es : List (UndoFlags × UndoData)) :
    ∀ st : CommitState, (∀ p ∈ es, isLoggedRowEntry p = true) →
    ∃ st2 evs, commitEntries true st es = .ok (st2, evs) ∧
      markersOf evs = chainDedup st.currentTable (entryTables es) := by
  induction es with
  | nil => exact fun st _ => ⟨st, [], rfl, rfl⟩
  | cons p rest ih =>
    intro st h
    obtain ⟨t, d⟩ := p
    have hp := h _ (List.mem_cons_self _ _)
    obtain ⟨tbl, st2, d2, evs, htbl, hce, _, hcur, hm⟩ := commitEntry_row_trace st t d hp
    obtain ⟨st3, evs2, hrest, hm2⟩ := ih st2 (fun q hq => h q (List.mem_cons_of_mem _ hq))
    refine ⟨st3, evs ++ evs2, ?_, ?_⟩
    · simp [commitEntries, hce, hrest]
    · have htab : entryTables ((t, d) :: rest) = tbl :: entryTables rest := by
        simp [entryTables, List.filterMap_cons, htbl]
      have happ : markersOf (evs ++ evs2) = markersOf evs ++ markersOf evs2 := by
        simp [markersOf, List.filterMap_append]
      rw [htab, happ, hm, hm2, hcur]
      by_cases hc : st.currentTable = some tbl.ptr
      · rw [if_pos hc]
        simp [chainDedup, hc]
      · rw [if_neg hc]
        simp [chainDedup, hc]

/-- `chainDedup` never produces two consecutive entries with the same table
identity, and its head never repeats the table the sink already addresses. -/
theorem chainDedup_chain (ts : List DataTableInfo) :
    ∀ cur, List.Chain' (fun a b => a.ptr ≠ b.ptr) (chainDedup cur ts) ∧
      (∀ x ∈ (chainDedup cur ts).head?, some x.ptr ≠ cur) := by
  induction ts with
  | nil =>
    intro cur
    refine ⟨List.chain'_nil, ?_⟩
    intro x hx
    simp [chainDedup] at hx
  | cons t ts ih =>
    intro cur
    by_cases hc : cur = some t.ptr
    · simp only [chainDedup, if_pos hc]
      exact ih cur
    · simp only [chainDedup, if_neg hc]
      obtain ⟨ihc, ihh⟩ := ih (some t.ptr)
      constructor
      · rw [List.chain'_cons']
        refine ⟨fun y hy he => (ihh y hy) ?_, ihc⟩
        rw [he]
      · intro x hx
        simp only [List.head?_cons, Option.mem_def, Option.some.injEq] at hx
        subst hx
        exact fun hcon => hc hcon.symm

/-- Initial commit state: `current_table_info` is null. -/
def initCommitState : CommitState := { commit_id := 10, currentTable := none }

def tableA : DataTableInfo :=
  { ptr := 1, schema := "main", table := "A", temporary := false }

def tableB : DataTableInfo :=
  { ptr := 2, schema := "main", table := "B", temporary := false }

def dummyCatalogEntry : CatalogEntryState :=
  { name := "t", parentName := "t", type := .TABLE_ENTRY, parentType := .TABLE_ENTRY,
    temporary := false, parentTemporary := false, timestamp := 0, parentTimestamp := 0 }

/-- A row-deletion undo entry on table `t` (deleting row `base_row + 0`). -/
def deleteEntryOn (t : DataTableInfo) : UndoFlags × UndoData :=
  (.DELETE_TUPLE,
   { catalogEntry := dummyCatalogEntry
     appendInfo := { table := t, start_row := 0, count := 1 }
     deleteInfo := { table := t, base_row := 0, rows := [0] }
     updateInfo :=
       { tableInfo := t, column_idx := 0, segment_start := 0, vector_index := 0,
         tuples := [], committed := fun _ => 0, version_number := 7 } })

/-- An undo log touching tables `[A, A, B, A]`. -/
def scenarioAABA : List (UndoFlags × UndoData) :=
  [deleteEntryOn tableA, deleteEntryOn tableA, deleteEntryOn tableB, deleteEntryOn tableA]

/-- C1: with logging enabled, committing a sequence of row-level undo entries
on non-temporary tables emits a switch-to-table marker exactly when the
entry's table differs from the table the log sink currently addresses
(`chainDedup`), so the marker sequence never contains two consecutive markers
for the same table; in particular the undo log touching tables `[A, A, B, A]`
yields exactly the three markers `A, B, A`. -/
theorem switchTable_markers_spec :
    (∀ (st : CommitState) (es : List (UndoFlags × UndoData)),
      (∀ p ∈ es, isLoggedRowEntry p = true) → st.currentTable = none →
      markersOf (entriesEventsOf (commitEntries true st es)) =
        chainDedup none (entryTables es) ∧
      List.Chain' (fun a b => a.ptr ≠ b.ptr)
        (markersOf (entriesEventsOf (commitEntries true st es)))) ∧
    markersOf (entriesEventsOf (commitEntries true initCommitState scenarioAABA)) =
      [tableA, tableB, tableA] := by
  constructor
  · intro st es hall hcur
    obtain ⟨st2, evs, hok, hm⟩ := commitEntries_markers es st hall
    have hev : entriesEventsOf (commitEntries true st es) = evs := by
      rw [hok]; rfl
    rw [hev, hm, hcur]
    exact ⟨rfl, (chainDedup_chain (entryTables es) none).1⟩
  · decide

theorem switchTable_markers_spec_witness :
    markersOf (entriesEventsOf (commitEntries true initCommitState scenarioAABA)) =
      chainDedup none (entryTables scenarioAABA) ∧
    List.Chain' (fun a b => a.ptr ≠ b.ptr)
      (markersOf (entriesEventsOf (commitEntries true initCommitState scenarioAABA))) :=
  switchTable_markers_spec.1 initCommitState scenarioAABA (by decide) rfl

/-- C3: committing a row-update entry with logging enabled on a non-temporary
table emits exactly one update record, keyed by the owning column's index,
pairing the committed pre-image value of each of the N changed tuple offsets
with the absolute row id
`segment_start + vector_index * STANDARD_VECTOR_SIZE + tuple`, and only
afterwards stamps the update-chain entry's version number with the commit
id. -/
theorem commit_update_preimage_spec (st : CommitState) (d : UndoData)
    (h : d.updateInfo.tableInfo.temporary = false) :
    st.CommitEntry true .UPDATE_TUPLE d = .ok
      ((st.SwitchTable d.updateInfo.tableInfo .UPDATE_TUPLE).1,
       { d with updateInfo := { d.updateInfo with version_number := st.commit_id } },
       (st.SwitchTable d.updateInfo.tableInfo .UPDATE_TUPLE).2 ++
         [.walUpdate d.updateInfo.column_idx
            (d.updateInfo.tuples.map d.updateInfo.committed)
            (d.updateInfo.tuples.map fun t =>
              d.updateInfo.segment_start +
                d.updateInfo.vector_index * STANDARD_VECTOR_SIZE + t),
          .stampVersionEvt st.commit_id]) := by
  simp [CommitState.CommitEntry, CommitState.WriteUpdate, h]

theorem commit_update_preimage_spec_witness :
    initCommitState.CommitEntry true .UPDATE_TUPLE (deleteEntryOn tableA).2 = .ok
      ((initCommitState.SwitchTable (deleteEntryOn tableA).2.updateInfo.tableInfo
          .UPDATE_TUPLE).1,
       { (deleteEntryOn tableA).2 with updateInfo :=
          { (deleteEntryOn tableA).2.updateInfo with
            version_number := initCommitState.commit_id } },
       (initCommitState.SwitchTable (deleteEntryOn tableA).2.updateInfo.tableInfo
          .UPDATE_TUPLE).2 ++
         [.walUpdate (deleteEntryOn tableA).2.updateInfo.column_idx
            ((deleteEntryOn tableA).2.updateInfo.tuples.map
              (deleteEntryOn tableA).2.updateInfo.committed)
            ((deleteEntryOn tableA).2.updateInfo.tuples.map fun t =>
              (deleteEntryOn tableA).2.updateInfo.segment_start +
                (deleteEntryOn tableA).2.updateInfo.vector_index *
                  STANDARD_VECTOR_SIZE + t),
          .stampVersionEvt initCommitState.commit_id]) :=
  commit_update_preimage_spec initCommitState (deleteEntryOn tableA).2 rfl

/-- C4: committing a row-insertion entry with logging enabled on a
non-temporary table serializes the inserted row range to the log sink
(`WriteToLog`) strictly before `CommitAppend` marks the range committed; for a
temporary table, or without a log, no log record is emitted but
`CommitAppend(commit_id, start_row, count)` still runs. -/
theorem commit_insert_log_order_spec (st : CommitState) (d : UndoData) :
    (d.appendInfo.table.temporary = false →
      st.CommitEntry true .INSERT_TUPLE d = .ok
        ((st.SwitchTable d.appendInfo.table .INSERT_TUPLE).1, d,
         (st.SwitchTable d.appendInfo.table .INSERT_TUPLE).2 ++
           [.walInsert d.appendInfo.start_row d.appendInfo.count,
            .commitAppendEvt st.commit_id d.appendInfo.start_row d.appendInfo.count])) ∧
    (d.appendInfo.table.temporary = true →
      st.CommitEntry true .INSERT_TUPLE d = .ok
        (st, d,
          [.commitAppendEvt st.commit_id d.appendInfo.start_row d.appendInfo.count])) ∧
    st.CommitEntry false .INSERT_TUPLE d = .ok
      (st, d, [.commitAppendEvt st.commit_id d.appendInfo.start_row d.appendInfo.count]) := by
  refine ⟨?_, ?_, ?_⟩
  · intro h
    simp [CommitState.CommitEntry, CommitState.WriteToLog, h]
  · intro h
    simp [CommitState.CommitEntry, h]
  · simp [CommitState.CommitEntry]

theorem commit_insert_log_order_spec_witness :
    initCommitState.CommitEntry true .INSERT_TUPLE (deleteEntryOn tableA).2 = .ok
      ((initCommitState.SwitchTable (deleteEntryOn tableA).2.appendInfo.table
          .INSERT_TUPLE).1,
       (deleteEntryOn tableA).2,
       (initCommitState.SwitchTable (deleteEntryOn tableA).2.appendInfo.table
          .INSERT_TUPLE).2 ++
         [.walInsert (deleteEntryOn tableA).2.appendInfo.start_row
            (deleteEntryOn tableA).2.appendInfo.count,
          .commitAppendEvt initCommitState.commit_id
            (deleteEntryOn tableA).2.appendInfo.start_row
            (deleteEntryOn tableA).2.appendInfo.count]) :=
  (commit_insert_log_order_spec initCommitState (deleteEntryOn tableA).2).1 rfl

/-- C8: the revert direction never writes to the log sink: for every
undo-entry kind the trace of `RevertCommit` contains no WAL call (and an
unknown kind raises before any effect). -/
theorem revert_no_wal_spec (st : CommitState) (t : UndoFlags) (d : UndoData) :
    (revertEventsOf (st.RevertCommit t d)).all (fun e => !e.isWal) = true := by
  cases t <;>
    simp [CommitState.RevertCommit, revertEventsOf, List.all_eq_true, Event.isWal]

/-- C2: for a catalog-change undo entry whose pre-transaction timestamps hold
the transaction's (uncommitted) id, `CommitEntry` stamps the parent entry —
and the child entry when the names differ — with the commit id, and a
subsequent `RevertCommit` (run with the transaction id as its `commit_id`)
re-stamps the same entries with the transaction id, restoring the
pre-transaction visibility state exactly. -/
theorem catalog_commit_revert_inverse (HAS_LOG : Bool) (st st2 stc : CommitState)
    (d d2 : UndoData) (evs : List Event)
    (hc : st.CommitEntry HAS_LOG .CATALOG_ENTRY d = .ok (stc, d2, evs))
    (h1 : d.catalogEntry.parentTimestamp = st2.commit_id)
    (h2 : d.catalogEntry.name ≠ d.catalogEntry.parentName →
      d.catalogEntry.timestamp = st2.commit_id) :
    (d2.catalogEntry.parentTimestamp = st.commit_id ∧
      (d2.catalogEntry.name ≠ d2.catalogEntry.parentName →
        d2.catalogEntry.timestamp = st.commit_id)) ∧
    st2.RevertCommit .CATALOG_ENTRY d2 =
      .ok (d,
        [Event.updateTimestampEvt d.catalogEntry.parentName st2.commit_id] ++
          (if d.catalogEntry.name ≠ d.catalogEntry.parentName then
            [Event.updateTimestampEvt d.catalogEntry.name st2.commit_id]
          else [])) := by
  obtain ⟨ce, ai, di, ui⟩ := d
  obtain ⟨n, pn, ty, pty, tm, ptm, ts, pts⟩ := ce
  simp only at h1 h2
  subst h1
  by_cases hne : n = pn
  · subst hne
    cases HAS_LOG
    · simp only [CommitState.CommitEntry, Bool.false_eq_true, if_false, ne_eq,
        not_true_eq_false, ite_false, Except.ok.injEq, Prod.mk.injEq] at hc
      obtain ⟨hst, hd2, hevs⟩ := hc
      subst hd2
      refine ⟨⟨rfl, ?_⟩, ?_⟩
      · intro hcon; exact absurd rfl hcon
      · simp [CommitState.RevertCommit]
    · simp only [CommitState.CommitEntry, if_true, ne_eq, not_true_eq_false,
        ite_false] at hc
      split at hc
      · exact absurd hc (by simp)
      · simp only [Except.ok.injEq, Prod.mk.injEq] at hc
        obtain ⟨hst, hd2, hevs⟩ := hc
        subst hd2
        refine ⟨⟨rfl, ?_⟩, ?_⟩
        · intro hcon; exact absurd rfl hcon
        · simp [CommitState.RevertCommit]
  · have hts : ts = st2.commit_id := h2 (by simpa using hne)
    subst hts
    cases HAS_LOG
    · simp only [CommitState.CommitEntry, Bool.false_eq_true, if_false, ne_eq,
        hne, not_false_eq_true, ite_true, Except.ok.injEq, Prod.mk.injEq] at hc
      obtain ⟨hst, hd2, hevs⟩ := hc
      subst hd2
      refine ⟨⟨rfl, fun _ => rfl⟩, ?_⟩
      · simp [CommitState.RevertCommit, hne]
    · simp only [CommitState.CommitEntry, if_true, ne_eq, hne,
        not_false_eq_true, ite_true] at hc
      split at hc
      · exact absurd hc (by simp)
      · simp only [Except.ok.injEq, Prod.mk.injEq] at hc
        obtain ⟨hst, hd2, hevs⟩ := hc
        subst hd2
        refine ⟨⟨rfl, fun _ => rfl⟩, ?_⟩
        · simp [CommitState.RevertCommit, hne]

def stCommit5 : CommitState := { commit_id := 5, currentTable := none }

def stRevert100 : CommitState := { commit_id := 100, currentTable := none }

/-- A renamed-table catalog entry whose timestamps hold transaction id 100. -/
def c2Entry : UndoData :=
  { catalogEntry :=
      { name := "tnew", parentName := "told", type := .TABLE_ENTRY,
        parentType := .TABLE_ENTRY, temporary := false, parentTemporary := false,
        timestamp := 100, parentTimestamp := 100 }
    appendInfo := { table := tableA, start_row := 0, count := 1 }
    deleteInfo := { table := tableA, base_row := 0, rows := [0] }
    updateInfo :=
      { tableInfo := tableA, column_idx := 0, segment_start := 0, vector_index := 0,
        tuples := [], committed := fun _ => 0, version_number := 100 } }

/-- `c2Entry` after committing at commit id 5. -/
def c2After : UndoData :=
  { c2Entry with catalogEntry :=
      { c2Entry.catalogEntry with parentTimestamp := 5, timestamp := 5 } }

theorem catalog_commit_revert_inverse_witness :
    (c2After.catalogEntry.parentTimestamp = stCommit5.commit_id ∧
      (c2After.catalogEntry.name ≠ c2After.catalogEntry.parentName →
        c2After.catalogEntry.timestamp = stCommit5.commit_id)) ∧
    stRevert100.RevertCommit .CATALOG_ENTRY c2After =
      .ok (c2Entry,
        [Event.updateTimestampEvt c2Entry.catalogEntry.parentName stRevert100.commit_id] ++
          (if c2Entry.catalogEntry.name ≠ c2Entry.catalogEntry.parentName then
            [Event.updateTimestampEvt c2Entry.catalogEntry.name stRevert100.commit_id]
          else [])) :=
  catalog_commit_revert_inverse false stCommit5 stRevert100 stCommit5 c2Entry c2After
    [Event.updateTimestampEvt "told" 5, Event.updateTimestampEvt "tnew" 5]
    (by rfl) rfl (fun _ => rfl)

/-- The drop kinds `WriteCatalogEntry` handles under a `DELETED_ENTRY`
parent (including the explicit prepared-statement no-op). -/
def handledDropType : CatalogType → Bool
  | .TABLE_ENTRY => true
  | .SCHEMA_ENTRY => true
  | .VIEW_ENTRY => true
  | .SEQUENCE_ENTRY => true
  | .MACRO_ENTRY => true
  | .PREPARED_STATEMENT => true
  | _ => false

/-- Whether a result of `WriteCatalogEntry` is an error. -/
def walResultIsError (r : Except WalWriteError (List Event)) : Bool :=
  match r with
  | .error _ => true
  | .ok _ => false

/-- Whether a commit result is the "don't know how to commit this type"
default-branch error. -/
def isUnknownCommitErr
    (r : Except CommitError (CommitState × UndoData × List Event)) : Bool :=
  match r with
  | .error .unknownUndoTypeCommit => true
  | _ => false

/-- Whether a revert result is the "don't know how to revert commit of this
type" default-branch error. -/
def isUnknownRevertErr (r : Except CommitError (UndoData × List Event)) : Bool :=
  match r with
  | .error .unknownUndoTypeRevert => true
  | _ => false

/-- The four undo-entry kinds the engine knows. -/
def isKnownUndoKind : UndoFlags → Bool
  | .CATALOG_ENTRY => true
  | .INSERT_TUPLE => true
  | .DELETE_TUPLE => true
  | .UPDATE_TUPLE => true
  | _ => false

/-- `WriteCatalogEntry` errs exactly on non-temporary entries whose parent is
a `DELETED_ENTRY` with an unhandled entry type, or whose parent type falls to
the default branch. -/
theorem writeCatalogEntry_isError (e : CatalogEntryState) :
    walResultIsError (WriteCatalogEntry e) =
      (!e.temporary && !e.parentTemporary &&
        ((e.parentType == .DELETED_ENTRY && !handledDropType e.type) ||
          e.parentType == .INVALID_ENTRY)) := by
  obtain ⟨n, pn, ty, pty, tm, ptm, ts, pts⟩ := e
  cases tm <;> cases ptm <;> cases pty <;> cases ty <;>
    simp [WriteCatalogEntry, walResultIsError, handledDropType]

/-- C7 (amended): `CommitEntry` and `RevertCommit` hit their default-branch
`NotImplementedException` exactly when the undo-entry kind is not one of the
four known kinds, and `WriteCatalogEntry` raises `NotImplementedException`
exactly when the entry and its parent are non-temporary and either a
`DELETED_ENTRY`-parented entry has a type outside the handled set or the
parent's catalog type falls outside the enumerated cases. -/
theorem notImplemented_conditions (HAS_LOG : Bool) (st : CommitState)
    (t : UndoFlags) (d : UndoData) (e : CatalogEntryState) :
    isUnknownCommitErr (st.CommitEntry HAS_LOG t d) = !isKnownUndoKind t ∧
    isUnknownRevertErr (st.RevertCommit t d) = !isKnownUndoKind t ∧
    walResultIsError (WriteCatalogEntry e) =
      (!e.temporary && !e.parentTemporary &&
        ((e.parentType == .DELETED_ENTRY && !handledDropType e.type) ||
          e.parentType == .INVALID_ENTRY)) := by
  refine ⟨?_, ?_, writeCatalogEntry_isError e⟩
  · cases t <;> cases HAS_LOG <;>
      simp only [CommitState.CommitEntry] <;>
      (try split) <;> (try split) <;>
      simp_all [isUnknownCommitErr, isKnownUndoKind]
  · cases t <;>
      simp only [CommitState.RevertCommit] <;>
      simp [isUnknownRevertErr, isKnownUndoKind]

/-- A temporary dropped entry of an unsupported type: the claimed condition
for `NotImplementedException` holds (DELETED_ENTRY parent, type outside the
handled set), yet `WriteCatalogEntry` silently succeeds because of the
temporary-entry early return. -/
def c7TempDropEntry : CatalogEntryState :=
  { name := "f", parentName := "f", type := .SCALAR_FUNCTION_ENTRY,
    parentType := .DELETED_ENTRY, temporary := true, parentTemporary := false,
    timestamp := 0, parentTimestamp := 0 }

theorem writeCatalogEntry_temporary_counterexample :
    c7TempDropEntry.parentType = .DELETED_ENTRY ∧
    handledDropType c7TempDropEntry.type = false ∧
    WriteCatalogEntry c7TempDropEntry = .ok [] :=
  ⟨rfl, rfl, rfl⟩

/-- Events emitted by a successful `WriteCatalogEntry` are log-sink calls or
CommitAlter/CommitDrop hooks, never visibility mutations. -/
theorem wce_ok_all_walhook (e : CatalogEntryState) (evs : List Event)
    (h : WriteCatalogEntry e = .ok evs) :
    evs.all (fun x => x.isWal || x.isHook) = true := by
  obtain ⟨n, pn, ty, pty, tm, ptm, ts, pts⟩ := e
  cases tm <;> cases ptm <;> cases pty <;> cases ty <;>
    simp [WriteCatalogEntry] at h <;>
    (subst h; rfl)

theorem visEvents_nil_of_walhook (w : List Event)
    (h : w.all (fun x => x.isWal || x.isHook) = true) : visEvents w = [] := by
  rw [visEvents, List.filter_eq_nil]
  intro a ha
  have h2 := List.all_eq_true.mp h a ha
  cases a <;> simp_all [Event.isVis, Event.isWal, Event.isHook]

theorem filter_nonLog_nil_of_walhook (w : List Event)
    (h : w.all (fun x => x.isWal || x.isHook) = true) :
    w.filter (fun e => !e.isWal && !e.isHook) = [] := by
  rw [List.filter_eq_nil]
  intro a ha
  have h2 := List.all_eq_true.mp h a ha
  cases a <;> simp_all [Event.isWal, Event.isHook]

/-- Set every IsTemporary flag an undo entry could expose to the engine. -/
def setTemporary (d : UndoData) (b : Bool) : UndoData :=
  { catalogEntry := { d.catalogEntry with temporary := b, parentTemporary := b }
    appendInfo := { d.appendInfo with table := { d.appendInfo.table with temporary := b } }
    deleteInfo := { d.deleteInfo with table := { d.deleteInfo.table with temporary := b } }
    updateInfo := { d.updateInfo with tableInfo :=
      { d.updateInfo.tableInfo with temporary := b } } }

/-- Dropping the log-sink calls and catalog hooks from a trace never loses a
visibility mutation. -/
theorem visEvents_nonLog (evs : List Event) :
    visEvents (evs.filter (fun e => !e.isWal && !e.isHook)) = visEvents evs := by
  induction evs with
  | nil => rfl
  | cons a l ih =>
    cases a <;> simpa [visEvents, Event.isVis, Event.isWal, Event.isHook] using ih

/-- A trace stripped of log-sink calls and hooks contains no log-sink call. -/
theorem nonLog_all_nonWal (evs : List Event) :
    (evs.filter (fun e => !e.isWal && !e.isHook)).all (fun e => !e.isWal) = true := by
  rw [List.all_eq_true]
  intro a ha
  have h := List.mem_filter.mp ha
  simp only [Bool.and_eq_true] at h
  exact h.2.1

/-- C9 (amended): whenever `CommitEntry<true>` succeeds, `CommitEntry<false>`
succeeds with the same mutated entry payload (the same catalog timestamp
updates and version stamping), the same visibility events (CommitAppend,
CommitDelete, timestamp updates, version stamps), and a trace free of
log-sink calls — precisely the logged trace minus its log-sink calls and
CommitAlter/CommitDrop hooks; moreover `CommitEntry<false>` never consults
any IsTemporary flag: flipping every temporary flag commutes with it. -/
theorem commitEntry_noLog_refinement :
    (∀ (st : CommitState) (t : UndoFlags) (d : UndoData)
        (st2 : CommitState) (d2 : UndoData) (evs2 : List Event),
      st.CommitEntry true t d = .ok (st2, d2, evs2) →
      st.CommitEntry false t d =
        .ok (st, d2, evs2.filter (fun e => !e.isWal && !e.isHook)) ∧
      visEvents (evs2.filter (fun e => !e.isWal && !e.isHook)) = visEvents evs2 ∧
      (evs2.filter (fun e => !e.isWal && !e.isHook)).all (fun e => !e.isWal) = true) ∧
    (∀ (st : CommitState) (t : UndoFlags) (d : UndoData) (b : Bool),
      st.CommitEntry false t (setTemporary d b) =
        (st.CommitEntry false t d).map
          (fun r => (r.1, setTemporary r.2.1 b, r.2.2))) := by
  constructor
  · intro st t d st2 d2 evs2 hc
    refine ⟨?_, visEvents_nonLog evs2, nonLog_all_nonWal evs2⟩
    cases t
    case CATALOG_ENTRY =>
      by_cases hne : d.catalogEntry.name = d.catalogEntry.parentName
      · simp only [CommitState.CommitEntry, hne, ne_eq, not_true_eq_false,
          ite_false, if_true] at hc
        split at hc
        · exact absurd hc (by simp)
        · next w heq =>
          simp only [Except.ok.injEq, Prod.mk.injEq] at hc
          obtain ⟨h1, h2, h3⟩ := hc
          subst h2
          subst h3
          have hall := wce_ok_all_walhook _ w heq
          simp [CommitState.CommitEntry, hne, List.filter_append,
            Event.isWal, Event.isHook]
          intro a ha hfw
          have h5 := List.all_eq_true.mp hall a ha
          cases a <;> simp_all [Event.isWal, Event.isHook]
      · simp only [CommitState.CommitEntry, hne, ne_eq, not_false_eq_true,
          ite_true, if_true] at hc
        split at hc
        · exact absurd hc (by simp)
        · next w heq =>
          simp only [Except.ok.injEq, Prod.mk.injEq] at hc
          obtain ⟨h1, h2, h3⟩ := hc
          subst h2
          subst h3
          have hall := wce_ok_all_walhook _ w heq
          simp [CommitState.CommitEntry, hne, List.filter_append,
            Event.isWal, Event.isHook]
          intro a ha hfw
          have h5 := List.all_eq_true.mp hall a ha
          cases a <;> simp_all [Event.isWal, Event.isHook]
    case INSERT_TUPLE =>
      cases htmp : d.appendInfo.table.temporary
      · by_cases hcur : st.currentTable = some d.appendInfo.table.ptr
        · simp only [CommitState.CommitEntry, CommitState.WriteToLog,
            CommitState.SwitchTable, htmp, hcur, ne_eq, not_true_eq_false,
            ite_false, Bool.not_false, Bool.and_true, if_true, List.nil_append,
            Except.ok.injEq, Prod.mk.injEq] at hc
          obtain ⟨h1, h2, h3⟩ := hc
          subst h2; subst h3
          rfl
        · simp only [CommitState.CommitEntry, CommitState.WriteToLog,
            CommitState.SwitchTable, htmp, hcur, ne_eq, not_false_eq_true,
            ite_true, Bool.not_false, Bool.and_true, if_true, List.cons_append,
            List.nil_append, Except.ok.injEq, Prod.mk.injEq] at hc
          obtain ⟨h1, h2, h3⟩ := hc
          subst h2; subst h3
          rfl
      · simp only [CommitState.CommitEntry, htmp, Bool.not_true, Bool.and_false,
          if_false, Bool.false_eq_true, ite_false, Except.ok.injEq,
          Prod.mk.injEq] at hc
        obtain ⟨h1, h2, h3⟩ := hc
        subst h2; subst h3
        rfl
    case DELETE_TUPLE =>
      cases htmp : d.deleteInfo.table.temporary
      · by_cases hcur : st.currentTable = some d.deleteInfo.table.ptr
        · simp only [CommitState.CommitEntry, CommitState.WriteDelete,
            CommitState.SwitchTable, htmp, hcur, ne_eq, not_true_eq_false,
            ite_false, Bool.not_false, Bool.and_true, if_true, List.nil_append,
            Except.ok.injEq, Prod.mk.injEq] at hc
          obtain ⟨h1, h2, h3⟩ := hc
          subst h2; subst h3
          rfl
        · simp only [CommitState.CommitEntry, CommitState.WriteDelete,
            CommitState.SwitchTable, htmp, hcur, ne_eq, not_false_eq_true,
            ite_true, Bool.not_false, Bool.and_true, if_true, List.cons_append,
            List.nil_append, Except.ok.injEq, Prod.mk.injEq] at hc
          obtain ⟨h1, h2, h3⟩ := hc
          subst h2; subst h3
          rfl
      · simp only [CommitState.CommitEntry, htmp, Bool.not_true, Bool.and_false,
          if_false, Bool.false_eq_true, ite_false, Except.ok.injEq,
          Prod.mk.injEq] at hc
        obtain ⟨h1, h2, h3⟩ := hc
        subst h2; subst h3
        rfl
    case UPDATE_TUPLE =>
      cases htmp : d.updateInfo.tableInfo.temporary
      · by_cases hcur : st.currentTable = some d.updateInfo.tableInfo.ptr
        · simp only [CommitState.CommitEntry, CommitState.WriteUpdate,
            CommitState.SwitchTable, htmp, hcur, ne_eq, not_true_eq_false,
            ite_false, Bool.not_false, Bool.and_true, if_true, List.nil_append,
            Except.ok.injEq, Prod.mk.injEq] at hc
          obtain ⟨h1, h2, h3⟩ := hc
          subst h2; subst h3
          rfl
        · simp only [CommitState.CommitEntry, CommitState.WriteUpdate,
            CommitState.SwitchTable, htmp, hcur, ne_eq, not_false_eq_true,
            ite_true, Bool.not_false, Bool.and_true, if_true, List.cons_append,
            List.nil_append, Except.ok.injEq, Prod.mk.injEq] at hc
          obtain ⟨h1, h2, h3⟩ := hc
          subst h2; subst h3
          rfl
      · simp only [CommitState.CommitEntry, htmp, Bool.not_true, Bool.and_false,
          if_false, Bool.false_eq_true, ite_false, Except.ok.injEq,
          Prod.mk.injEq] at hc
        obtain ⟨h1, h2, h3⟩ := hc
        subst h2; subst h3
        rfl
    case EMPTY_ENTRY => exact absurd hc (by simp [CommitState.CommitEntry])
    case QUERY => exact absurd hc (by simp [CommitState.CommitEntry])
  · intro st t d b
    cases t <;> rfl

theorem commitEntry_noLog_refinement_witness :
    stCommit5.CommitEntry false .INSERT_TUPLE (deleteEntryOn tableA).2 =
      .ok (stCommit5, (deleteEntryOn tableA).2,
        ([Event.walSetTable tableA, Event.walInsert 0 1,
          Event.commitAppendEvt 5 0 1].filter (fun e => !e.isWal && !e.isHook))) ∧
    visEvents ([Event.walSetTable tableA, Event.walInsert 0 1,
        Event.commitAppendEvt 5 0 1].filter (fun e => !e.isWal && !e.isHook)) =
      visEvents [Event.walSetTable tableA, Event.walInsert 0 1,
        Event.commitAppendEvt 5 0 1] ∧
    ([Event.walSetTable tableA, Event.walInsert 0 1,
        Event.commitAppendEvt 5 0 1].filter (fun e => !e.isWal && !e.isHook)).all
      (fun e => !e.isWal) = true :=
  commitEntry_noLog_refinement.1 stCommit5 .INSERT_TUPLE (deleteEntryOn tableA).2
    { commit_id := 5, currentTable := some 1 } (deleteEntryOn tableA).2
    [Event.walSetTable tableA, Event.walInsert 0 1, Event.commitAppendEvt 5 0 1]
    (by rfl)

/-- A committed drop-table entry: `CommitEntry<true>` invokes the catalog's
CommitDrop hook, which `CommitEntry<false>` never does, so the two
instantiations differ in more than their log-sink calls. -/
def c9DropEntry : UndoData :=
  { catalogEntry :=
      { name := "t", parentName := "t", type := .TABLE_ENTRY,
        parentType := .DELETED_ENTRY, temporary := false, parentTemporary := false,
        timestamp := 0, parentTimestamp := 0 }
    appendInfo := { table := tableA, start_row := 0, count := 1 }
    deleteInfo := { table := tableA, base_row := 0, rows := [0] }
    updateInfo :=
      { tableInfo := tableA, column_idx := 0, segment_start := 0, vector_index := 0,
        tuples := [], committed := fun _ => 0, version_number := 0 } }

theorem commitEntry_noLog_hooks_counterexample :
    (commitEventsOf (stCommit5.CommitEntry true .CATALOG_ENTRY c9DropEntry)).filter
        (fun e => !e.isWal) ≠
      (commitEventsOf (stCommit5.CommitEntry false .CATALOG_ENTRY c9DropEntry)).filter
        (fun e => !e.isWal) := by
  decide
